import Mathlib

/-!
Shallow embedding of the activity pipeline of `src/renderer/reducers/activity.js`
and of the wallet-backup service factory of
`src/electron/walletBackup/serviceFactory.js` (zap-desktop).

JavaScript numbers appearing here (unix timestamps in seconds) are modelled as
`Int`; JavaScript strings as `String`; absent object properties as `none` of an
`Option` type; the JS `Set` holding the activity filter as a `Finset String`
(JS sets compare and are queried by membership only in this code).
-/

/- ------------------------------------------------------------------
   JS string primitives used by the search filter
   ------------------------------------------------------------------ -/

/-- Model of `String.prototype.includes` restricted to a starting position:
`listStartsWith s q` holds when `q` is an initial segment of `s`. -/
def listStartsWith : List Char → List Char → Bool
  | _, [] => true
  | [], _ :: _ => false
  | a :: as, b :: bs => a == b && listStartsWith as bs

/-- Model of JS substring search over char lists: does `q` occur contiguously in `s`. -/
def listContainsSub : List Char → List Char → Bool
  | [], q => q.isEmpty
  | a :: as, q => listStartsWith (a :: as) q || listContainsSub as q

/-- Model of `String.prototype.includes`. -/
def jsIncludes (s q : String) : Bool :=
  listContainsSub s.data q.data

/-- Model of `String.prototype.toLowerCase` (character-wise lowering). -/
def jsToLowerCase (s : String) : String :=
  String.mk (s.data.map Char.toLower)

/- ------------------------------------------------------------------
   Data model: activity items
   ------------------------------------------------------------------ -/

/-- An activity item as the reducer sees it: the union of the fields read by
`returnTimestamp`, `addDate`, `applySearch`, `groupActivity` and the category
selectors.  `date` and `timestamp` are the fields written by the normalizer
`addDate`; on raw items they default to the JS-falsy values "" and 0. -/
structure ActivityItem where
  type : String := ""
  date : String := ""
  timestamp : Int := 0
  time_stamp : Int := 0
  settle_date : Int := 0
  creation_date : Int := 0
  settled : Bool := false
  isExpired : Bool := false
  isReceived : Bool := false
  isFunding : Bool := false
  isClosing : Bool := false
  isPending : Bool := false
  sending : Bool := false
  memo : Option String := none
  tx_hash : Option String := none
  payment_hash : Option String := none
  payment_preimage : Option String := none
  payment_request : Option String := none
  dest_node_pubkey : Option String := none
  dest_node_alias : Option String := none
  dest_addresses : Option (List String) := none
deriving DecidableEq

/- ------------------------------------------------------------------
   Normalizer: returnTimestamp, months, addDate
   ------------------------------------------------------------------ -/

/-- Embedding of `returnTimestamp` (activity.js lines 93-104); the JS
function returns `null` on an unknown `type`, modelled by `none`. -/
def returnTimestamp (activity : ActivityItem) : Option Int :=
  if activity.type = "transaction" then some activity.time_stamp
  else if activity.type = "invoice" then
    some (if activity.settled then activity.settle_date else activity.creation_date)
  else if activity.type = "payment" then some activity.creation_date
  else none

/-- Embedding of the `months` array (activity.js line 74). -/
def months : List String :=
  ["Jan", "Feb", "Mar", "Apr", "May", "Jun", "Jul", "Aug", "Sep", "Oct", "Nov", "Dec"]

/-- Gregorian date (year, 1-based month, day) of a day count from 1970-01-01,
the standard civil-from-days algorithm, used to model the field extraction of
a JS `Date`. -/
def civilFromDays (z0 : Int) : Int × Nat × Nat :=
  let z := z0 + 719468
  let era := Int.fdiv z 146097
  let doe := (z - era * 146097).toNat
  let yoe := (doe - doe / 1460 + doe / 36524 - doe / 146096) / 365
  let doy := doe - (365 * yoe + yoe / 4 - yoe / 100)
  let mp := (5 * doy + 2) / 153
  let d := doy - (153 * mp + 2) / 5 + 1
  let m := if mp < 10 then mp + 3 else mp - 9
  (if m ≤ 2 then (yoe : Int) + era * 400 + 1 else (yoe : Int) + era * 400, m, d)

/-- Date string built by `addDate` from a unix-seconds timestamp: the JS
source formats `new Date(timestamp * 1000)` as month name, day-of-month and
year.  The JS accessors are local-time; the model fixes the UTC zone. -/
def formatDate (timestamp : Int) : String :=
  let days := Int.fdiv (timestamp * 1000) 86400000
  let c := civilFromDays days
  months.getD (c.2.1 - 1) "" ++ " " ++ toString c.2.2 ++ ", " ++ toString c.1

/-- Embedding of `addDate` (activity.js lines 486-491): decorates an entry
with `date` and `timestamp`.  A `null` result of `returnTimestamp` coerces to
the number 0 in every downstream numeric context of the source (the `Date`
multiplication, the sort subtraction), modelled by `Option.getD 0`. -/
def addDate (entry : ActivityItem) : ActivityItem :=
  let timestamp := (returnTimestamp entry).getD 0
  { entry with date := formatDate timestamp, timestamp := timestamp }

/- ------------------------------------------------------------------
   Grouper: groupActivity
   ------------------------------------------------------------------ -/

/-- An entry of the grouped activity list: either a synthetic separator
`{ title }` or a data item. -/
inductive GroupedEntry where
  | title (title : String)
  | item (item : ActivityItem)
deriving DecidableEq

/-- Embedding of `daysBetween` (activity.js line 152),
`Math.round((t2 - t1) / 86400)`: `Math.round x` is `Int.fdiv (x + 1/2)` scaled,
so the rounded quotient is `fdiv (2 * (t2 - t1) + 86400) 172800`. -/
def daysBetween (t1 t2 : Int) : Int :=
  Int.fdiv (2 * (t2 - t1) + 86400) 172800

/-- Stable insertion into a timestamp-descending list: the new element goes
after every element with a strictly larger or equal timestamp. -/
def insertDesc (x : ActivityItem) : List ActivityItem → List ActivityItem
  | [] => [x]
  | y :: ys => if y.timestamp < x.timestamp then x :: y :: ys else y :: insertDesc x ys

/-- Embedding of `data.sort((a, b) => b.timestamp - a.timestamp)` (activity.js
line 154): the JS sort is stable (ES2019), so any stable sort by descending
timestamp computes the same list; insertion sort is used. -/
def sortByTimestampDesc : List ActivityItem → List ActivityItem
  | [] => []
  | x :: xs => insertDesc x (sortByTimestampDesc xs)

/-- Embedding of one step of the `reduce` in `groupActivity` (activity.js
lines 155-169): `prev` is `acc[acc.length - 1]`; a separator entry there has
an undefined `timestamp`, making the `days >= 1` comparison false (NaN),
hence the separator branch inserts nothing. -/
def groupStep (acc : List GroupedEntry) (next : ActivityItem) : List GroupedEntry :=
  let acc1 :=
    match acc.getLast? with
    | some (GroupedEntry.item prev) =>
        if 1 ≤ daysBetween next.timestamp prev.timestamp
        then acc ++ [GroupedEntry.title next.date] else acc
    | some (GroupedEntry.title _) => acc
    | none => acc ++ [GroupedEntry.title next.date]
  acc1 ++ [GroupedEntry.item next]

/-- Embedding of `groupActivity` (activity.js lines 149-170). -/
def groupActivity (data : List ActivityItem) : List GroupedEntry :=
  (sortByTimestampDesc data).foldl groupStep []

/- ------------------------------------------------------------------
   Search filter: propMatches, applySearch, prepareData
   ------------------------------------------------------------------ -/

/-- The nine properties probed by `applySearch` (activity.js lines 186-196),
as accessors; `date` and `type` are always-present strings on the model and
are wrapped in `some` (JS truthiness of "" is handled in `propMatches`). -/
def searchFields (item : ActivityItem) : List (Option String) :=
  [some item.date, some item.type, item.memo, item.tx_hash, item.payment_hash,
   item.payment_preimage, item.payment_request, item.dest_node_pubkey, item.dest_node_alias]

/-- Embedding of `propMatches` (activity.js lines 82-85):
`item[prop] && item[prop].toLowerCase().includes(q.toLowerCase())`; an absent
property and the empty string are JS-falsy, hence non-matching. -/
def propMatches (searchTextSelector : String) (v : Option String) : Bool :=
  match v with
  | none => false
  | some s => !(s == "") && jsIncludes (jsToLowerCase s) (jsToLowerCase searchTextSelector)

/-- Embedding of the `dest_addresses` clause of `applySearch` (lines 199-200):
`item.dest_addresses && item.dest_addresses.find(addr => addr.includes(q))`,
truthy when `find` returns a non-falsy (nonempty) string. -/
def hasAddressMatch (item : ActivityItem) (searchTextSelector : String) : Bool :=
  match item.dest_addresses with
  | none => false
  | some addrs =>
      match addrs.find? (fun addr => jsIncludes addr searchTextSelector) with
      | none => false
      | some a => !(a == "")

/-- Embedding of `applySearch` (activity.js lines 179-205); the guard
`if (!searchTextSelector) return data` fires on `null` and on "". -/
def applySearch (data : List ActivityItem) (searchTextSelector : Option String) :
    List ActivityItem :=
  match searchTextSelector with
  | none => data
  | some q =>
      if q == "" then data
      else
        data.filter fun item =>
          (searchFields item).any (propMatches q) || hasAddressMatch item q

/-- Embedding of `prepareData` (activity.js lines 207-209). -/
def prepareData (data : List ActivityItem) (searchText : Option String) :
    List GroupedEntry :=
  groupActivity (applySearch data searchText)

/- ------------------------------------------------------------------
   Filter state: defaultFilter and the reducer action handlers
   ------------------------------------------------------------------ -/

/-- Embedding of `defaultFilter` (activity.js lines 25-31). -/
def defaultFilter : Finset String :=
  {"SENT_ACTIVITY", "RECEIVED_ACTIVITY", "PENDING_ACTIVITY", "EXPIRED_ACTIVITY",
   "INTERNAL_ACTIVITY"}

/-- Embedding of the `CHANGE_FILTER` action handler (activity.js lines
402-411): for each key of the incoming list, delete it when present and add
it otherwise. -/
def changeFilterHandler (filter : Finset String) (filterList : List String) :
    Finset String :=
  filterList.foldl (fun f item => if item ∈ f then f.erase item else insert item f) filter

/-- Embedding of the `ADD_FILTER` action handler (activity.js lines 412-418):
adds each key only when the filter set is nonempty (`filter.size > 0`). -/
def addFilterHandler (filter : Finset String) (filterList : List String) :
    Finset String :=
  if 0 < filter.card then filterList.foldl (fun f item => insert item f) filter
  else filter

/- ------------------------------------------------------------------
   Category selector bodies and the composition selector
   ------------------------------------------------------------------ -/

/-- Embedding of the combiner of `sentActivityRaw` (activity.js lines
494-509): all payments together with the non-received, non-funding,
non-closing, non-pending transactions, each decorated by `addDate`.  The
payments pool holds the settled sends; in-flight payments live in the
separate `paymentsSending` pool consumed by the pending selector. -/
def sentActivityRaw (payments transactions : List ActivityItem) : List ActivityItem :=
  (payments ++
    transactions.filter fun transaction =>
      !transaction.isReceived && !transaction.isFunding && !transaction.isClosing &&
        !transaction.isPending).map addDate

/-- Embedding of the combiner of `activitySelectors.currentActivity`
(activity.js lines 572-592): choose the pools named by the filter set (the
default filter when the set is empty), concatenate them in source order, then
`prepareData`. -/
def currentActivity (searchText : Option String) (filters : Finset String)
    (sent received pending expired internal : List ActivityItem) : List GroupedEntry :=
  let curFilter := if 0 < filters.card then filters else defaultFilter
  let result :=
    (if "SENT_ACTIVITY" ∈ curFilter then sent else []) ++
    (if "RECEIVED_ACTIVITY" ∈ curFilter then received else []) ++
    (if "PENDING_ACTIVITY" ∈ curFilter then pending else []) ++
    (if "EXPIRED_ACTIVITY" ∈ curFilter then expired else []) ++
    (if "INTERNAL_ACTIVITY" ∈ curFilter then internal else [])
  prepareData result searchText

/- ------------------------------------------------------------------
   Wallet backup service factory
   ------------------------------------------------------------------ -/

/-- The three backup providers returned by the factory; `getGDrive()`,
`getDropbox()` and `getLocal()` construct external SDK wrappers, modelled as
opaque tags. -/
inductive BackupService where
  | gdrive
  | dropbox
  | local
deriving DecidableEq

/-- Embedding of the constant `GOOGLE_DRIVE` (serviceFactory.js line 5). -/
def GOOGLE_DRIVE : String := "gdrive"

/-- Embedding of the constant `DROPBOX` (serviceFactory.js line 6). -/
def DROPBOX : String := "dropbox"

/-- Embedding of the constant `LOCAL` (serviceFactory.js line 7). -/
def LOCAL : String := "local"

/-- Embedding of `getBackupService` (serviceFactory.js lines 9-20): exact
string dispatch, throwing `new Error('not implemented')` otherwise, modelled
by `Except.error`. -/
def getBackupService (provider : String) : Except String BackupService :=
  if provider = GOOGLE_DRIVE then Except.ok BackupService.gdrive
  else if provider = DROPBOX then Except.ok BackupService.dropbox
  else if provider = LOCAL then Except.ok BackupService.local
  else Except.error "not implemented"

/- ------------------------------------------------------------------
   Specification-side predicates (phrased from the spec, to be compared
   with the source embeddings above)
   ------------------------------------------------------------------ -/

/-- Items of a grouped list, separators removed. -/
def GroupedEntry.getItem : GroupedEntry → Option ActivityItem
  | GroupedEntry.title _ => none
  | GroupedEntry.item a => some a

/-- Separator-placement predicate over the tail of a grouped sequence, with
`prev` the last data item already seen and `θ` the seconds gap at or above
which a separator is required: a later data item is preceded by a separator
exactly when its timestamp is at least `θ` seconds below the timestamp of the
previous data item, and every separator carries the date of the item that
follows it. -/
def sepChainB (θ : Int) : ActivityItem → List GroupedEntry → Bool
  | _, [] => true
  | prev, GroupedEntry.item a :: rest =>
      decide (prev.timestamp - a.timestamp < θ) && sepChainB θ a rest
  | prev, GroupedEntry.title d :: GroupedEntry.item a :: rest =>
      decide (θ ≤ prev.timestamp - a.timestamp) && (d == a.date) && sepChainB θ a rest
  | _, GroupedEntry.title _ :: [] => false
  | _, GroupedEntry.title _ :: GroupedEntry.title _ :: _ => false

/-- Whole-sequence separator predicate: a separator carrying the date of the
first data item immediately precedes it, and afterwards separators sit
exactly at gaps of at least `θ` seconds. -/
def sepSpecB (θ : Int) : List GroupedEntry → Bool
  | [] => true
  | GroupedEntry.title d :: GroupedEntry.item a :: rest => (d == a.date) && sepChainB θ a rest
  | _ => false

/-- Spec-side search predicate (spec section 4.2): some listed field is
present and contains the query as a case-insensitive substring, or some
destination address contains it case-sensitively. -/
def specMatches (q : String) (item : ActivityItem) : Prop :=
  (∃ v ∈ searchFields item, ∃ s, v = some s ∧
      jsIncludes (jsToLowerCase s) (jsToLowerCase q) = true) ∨
  (∃ addrs, item.dest_addresses = some addrs ∧ ∃ a ∈ addrs, jsIncludes a q = true)

/-- Structural form of the grouping fold: emits each item of the (already
sorted) tail, preceded by a separator exactly when the rounded day gap from
the previous item is at least one. -/
def groupGo (prev : ActivityItem) : List ActivityItem → List GroupedEntry
  | [] => []
  | next :: rest =>
      (if 1 ≤ daysBetween next.timestamp prev.timestamp
       then [GroupedEntry.title next.date] else []) ++
      (GroupedEntry.item next :: groupGo next rest)

/-- Sample item used to instantiate the search theorems. -/
def aliceItem : ActivityItem := { dest_node_alias := some "Alice Node" }

/- ------------------------------------------------------------------
   Helper lemmas
   ------------------------------------------------------------------ -/

theorem one_le_daysBetween_iff (t1 t2 : Int) :
    1 ≤ daysBetween t1 t2 ↔ 43200 ≤ t2 - t1 := by
  unfold daysBetween
  rw [Int.fdiv_eq_ediv _ (by norm_num)]
  omega

theorem insertDesc_perm (x : ActivityItem) (l : List ActivityItem) :
    (insertDesc x l).Perm (x :: l) := by
  induction l with
  | nil => simp [insertDesc]
  | cons y ys ih =>
    by_cases h : y.timestamp < x.timestamp
    · simp [insertDesc, h]
    · rw [insertDesc, if_neg h]
      exact (ih.cons y).trans (List.Perm.swap x y ys)

theorem sortByTimestampDesc_perm (l : List ActivityItem) :
    (sortByTimestampDesc l).Perm l := by
  induction l with
  | nil => simp [sortByTimestampDesc]
  | cons x xs ih =>
    exact (insertDesc_perm x (sortByTimestampDesc xs)).trans (ih.cons x)

theorem mem_insertDesc {x z : ActivityItem} {l : List ActivityItem}
    (h : z ∈ insertDesc x l) : z = x ∨ z ∈ l := by
  have := (insertDesc_perm x l).mem_iff.mp h
  simpa using this

theorem insertDesc_pairwise (x : ActivityItem) (l : List ActivityItem)
    (h : l.Pairwise fun a b => b.timestamp ≤ a.timestamp) :
    (insertDesc x l).Pairwise fun a b => b.timestamp ≤ a.timestamp := by
  induction l with
  | nil => simp [insertDesc]
  | cons y ys ih =>
    rcases List.pairwise_cons.mp h with ⟨hy, hys⟩
    by_cases hlt : y.timestamp < x.timestamp
    · rw [insertDesc, if_pos hlt]
      refine List.pairwise_cons.mpr ⟨?_, h⟩
      intro z hz
      rcases List.mem_cons.mp hz with rfl | hz
      · exact le_of_lt hlt
      · exact (hy z hz).trans (le_of_lt hlt)
    · rw [insertDesc, if_neg hlt]
      refine List.pairwise_cons.mpr ⟨?_, ih hys⟩
      intro z hz
      rcases mem_insertDesc hz with rfl | hz
      · exact le_of_not_lt hlt
      · exact hy z hz

theorem sortByTimestampDesc_pairwise (l : List ActivityItem) :
    (sortByTimestampDesc l).Pairwise fun a b => b.timestamp ≤ a.timestamp := by
  induction l with
  | nil => simp [sortByTimestampDesc]
  | cons x xs ih => exact insertDesc_pairwise x (sortByTimestampDesc xs) ih

theorem foldl_groupStep (l : List ActivityItem) :
    ∀ (acc : List GroupedEntry) (p : ActivityItem),
      acc.getLast? = some (GroupedEntry.item p) →
      l.foldl groupStep acc = acc ++ groupGo p l := by
  induction l with
  | nil => intro acc p _; simp [groupGo]
  | cons x xs ih =>
    intro acc p h
    have hstep : groupStep acc x =
        acc ++ ((if 1 ≤ daysBetween x.timestamp p.timestamp
                 then [GroupedEntry.title x.date] else []) ++ [GroupedEntry.item x]) := by
      rw [groupStep, h]
      by_cases hc : 1 ≤ daysBetween x.timestamp p.timestamp
      · simp [hc]
      · simp [hc]
    have hlast : (groupStep acc x).getLast? = some (GroupedEntry.item x) := by
      rw [hstep, ← List.append_assoc]
      exact List.getLast?_concat _
    rw [List.foldl_cons, ih (groupStep acc x) x hlast, hstep, groupGo]
    simp

theorem groupActivity_eq (data : List ActivityItem) :
    groupActivity data =
      match sortByTimestampDesc data with
      | [] => []
      | x :: xs => GroupedEntry.title x.date :: GroupedEntry.item x :: groupGo x xs := by
  unfold groupActivity
  cases hs : sortByTimestampDesc data with
  | nil => rfl
  | cons x xs =>
    rw [List.foldl_cons, foldl_groupStep xs (groupStep [] x) x rfl]
    rfl

theorem filterMap_getItem_groupGo (l : List ActivityItem) :
    ∀ p, (groupGo p l).filterMap GroupedEntry.getItem = l := by
  induction l with
  | nil => intro p; rfl
  | cons x xs ih =>
    intro p
    rw [groupGo]
    by_cases hc : 1 ≤ daysBetween x.timestamp p.timestamp
    · simp [hc, GroupedEntry.getItem, ih]
    · simp [hc, GroupedEntry.getItem, ih]

theorem groupActivity_filterMap (data : List ActivityItem) :
    (groupActivity data).filterMap GroupedEntry.getItem = sortByTimestampDesc data := by
  rw [groupActivity_eq]
  cases hs : sortByTimestampDesc data with
  | nil => rfl
  | cons x xs => simp [GroupedEntry.getItem, filterMap_getItem_groupGo]

theorem sepChainB_groupGo (l : List ActivityItem) :
    ∀ p, sepChainB 43200 p (groupGo p l) = true := by
  induction l with
  | nil => intro p; rfl
  | cons x xs ih =>
    intro p
    rw [groupGo]
    by_cases hc : 1 ≤ daysBetween x.timestamp p.timestamp
    · have h43 : 43200 ≤ p.timestamp - x.timestamp := by
        have := (one_le_daysBetween_iff x.timestamp p.timestamp).mp hc
        omega
      simp [hc, sepChainB, h43, ih]
    · have h43 : p.timestamp - x.timestamp < 43200 := by
        have := mt (one_le_daysBetween_iff x.timestamp p.timestamp).mpr hc
        omega
      simp [hc, sepChainB, h43, ih]

theorem jsIncludes_empty_left {q : String} (hq : q ≠ "") : jsIncludes "" q = false := by
  obtain ⟨ql⟩ := q
  cases ql with
  | nil => exact absurd rfl hq
  | cons c cs => rfl

theorem jsToLowerCase_ne_empty {q : String} (hq : q ≠ "") : jsToLowerCase q ≠ "" := by
  obtain ⟨ql⟩ := q
  cases ql with
  | nil => exact absurd rfl hq
  | cons c cs =>
    intro h
    simpa [jsToLowerCase] using congrArg String.data h

theorem propMatches_eq_spec {q : String} (hq : q ≠ "") (v : Option String) :
    propMatches q v = true ↔
      ∃ s, v = some s ∧ jsIncludes (jsToLowerCase s) (jsToLowerCase q) = true := by
  cases v with
  | none => simp [propMatches]
  | some s =>
    by_cases hs : s = ""
    · subst hs
      have : jsIncludes (jsToLowerCase "") (jsToLowerCase q) = false :=
        jsIncludes_empty_left (jsToLowerCase_ne_empty hq)
      simp [propMatches, this]
    · simp [propMatches, hs]

theorem findAddr_iff {q : String} (hq : q ≠ "") (addrs : List String) :
    (match addrs.find? (fun addr => jsIncludes addr q) with
     | none => false
     | some a => !(a == "")) = true ↔ ∃ a ∈ addrs, jsIncludes a q = true := by
  cases hf : addrs.find? (fun addr => jsIncludes addr q) with
  | none =>
    constructor
    · intro h; simp at h
    · rintro ⟨a, ha, hinc⟩
      have hsome : (addrs.find? fun addr => jsIncludes addr q).isSome := by
        rw [List.find?_isSome]
        exact ⟨a, ha, hinc⟩
      rw [hf] at hsome
      simp at hsome
  | some a =>
    have hp : jsIncludes a q = true := by simpa using List.find?_some hf
    have hm : a ∈ addrs := List.mem_of_find?_eq_some hf
    have hane : a ≠ "" := by
      intro h
      subst h
      rw [jsIncludes_empty_left hq] at hp
      exact absurd hp (by simp)
    constructor
    · intro _; exact ⟨a, hm, hp⟩
    · intro _; simpa using hane

theorem hasAddressMatch_iff {q : String} (hq : q ≠ "") (item : ActivityItem) :
    hasAddressMatch item q = true ↔
      ∃ addrs, item.dest_addresses = some addrs ∧ ∃ a ∈ addrs, jsIncludes a q = true := by
  cases hd : item.dest_addresses with
  | none => simp [hasAddressMatch, hd]
  | some addrs =>
    rw [hasAddressMatch, hd]
    rw [findAddr_iff hq addrs]
    constructor
    · intro h; exact ⟨addrs, rfl, h⟩
    · rintro ⟨addrs2, haddrs2, h⟩
      cases haddrs2
      exact h

/- ------------------------------------------------------------------
   Claim theorems
   ------------------------------------------------------------------ -/

/-- Claim C1, as frozen, is false on the code: with two items 43200 seconds
apart the grouper already inserts a separator before the second item, because
`Math.round(43200 / 86400) = 1`, while the claim requires a gap of at least
86400 seconds for a separator.  Concrete refuting input: items with
timestamps 86400 and 43200. -/
theorem groupActivity_sep86400_counterexample :
    sepSpecB 86400 (groupActivity
      [{ date := "Jan 2, 1970", timestamp := 86400 },
       { date := "Jan 1, 1970", timestamp := 43200 }]) = false := by
  decide

/-- Claim C1 (amended): for every list of normalized activity items, in the
grouper output a separator immediately precedes the first data item, and a
separator precedes exactly those later data items whose timestamp is at
least 43200 seconds (a rounded day gap of at least one) below the
immediately preceding data item timestamp; each separator carries the date
string of the data item that follows it. -/
theorem groupActivity_separator_rule (data : List ActivityItem) :
    sepSpecB 43200 (groupActivity data) = true := by
  rw [groupActivity_eq]
  cases hs : sortByTimestampDesc data with
  | nil => rfl
  | cons x xs => simp [sepSpecB, sepChainB_groupGo]

/-- Claim C3: for every list of normalized activity items, the grouper
output with separators removed is a permutation of the input whose
timestamps are pairwise non-increasing. -/
theorem groupActivity_item_order (data : List ActivityItem) :
    ((groupActivity data).filterMap GroupedEntry.getItem).Perm data ∧
    ((groupActivity data).filterMap GroupedEntry.getItem).Pairwise
      (fun a b => b.timestamp ≤ a.timestamp) := by
  rw [groupActivity_filterMap]
  exact ⟨sortByTimestampDesc_perm data, sortByTimestampDesc_pairwise data⟩

/-- Claim C2: for every search text, filter set and five normalized category
pools, `currentActivity` is exactly: concatenate the pools of the enabled
categories (a category is enabled when the filter set is empty or contains
its key), then apply the search filter, then the grouper. -/
theorem currentActivity_pipeline (searchText : Option String) (filters : Finset String)
    (sent received pending expired internal : List ActivityItem) :
    currentActivity searchText filters sent received pending expired internal =
      groupActivity (applySearch (
        (if filters = ∅ ∨ "SENT_ACTIVITY" ∈ filters then sent else []) ++
        (if filters = ∅ ∨ "RECEIVED_ACTIVITY" ∈ filters then received else []) ++
        (if filters = ∅ ∨ "PENDING_ACTIVITY" ∈ filters then pending else []) ++
        (if filters = ∅ ∨ "EXPIRED_ACTIVITY" ∈ filters then expired else []) ++
        (if filters = ∅ ∨ "INTERNAL_ACTIVITY" ∈ filters then internal else []))
        searchText) := by
  by_cases h : filters = ∅
  · subst h
    have h1 : ("SENT_ACTIVITY" : String) ∈ defaultFilter := by decide
    have h2 : ("RECEIVED_ACTIVITY" : String) ∈ defaultFilter := by decide
    have h3 : ("PENDING_ACTIVITY" : String) ∈ defaultFilter := by decide
    have h4 : ("EXPIRED_ACTIVITY" : String) ∈ defaultFilter := by decide
    have h5 : ("INTERNAL_ACTIVITY" : String) ∈ defaultFilter := by decide
    simp [currentActivity, prepareData, h1, h2, h3, h4, h5]
  · have hcard : 0 < filters.card :=
      Finset.card_pos.mpr (Finset.nonempty_iff_ne_empty.mpr h)
    simp [currentActivity, prepareData, h, hcard]

/-- Claim C10: when the filter set is nonempty yet contains none of the five
recognized category keys, `currentActivity` returns the empty sequence; the
all-categories sentinel applies only to the literally empty filter set. -/
theorem currentActivity_unrecognized_keys (searchText : Option String)
    (filters : Finset String)
    (sent received pending expired internal : List ActivityItem)
    (hne : filters ≠ ∅)
    (h1 : "SENT_ACTIVITY" ∉ filters) (h2 : "RECEIVED_ACTIVITY" ∉ filters)
    (h3 : "PENDING_ACTIVITY" ∉ filters) (h4 : "EXPIRED_ACTIVITY" ∉ filters)
    (h5 : "INTERNAL_ACTIVITY" ∉ filters) :
    currentActivity searchText filters sent received pending expired internal = [] := by
  have hcard : 0 < filters.card :=
    Finset.card_pos.mpr (Finset.nonempty_iff_ne_empty.mpr hne)
  have hempty :
      currentActivity searchText filters sent received pending expired internal =
        prepareData [] searchText := by
    simp [currentActivity, hcard, h1, h2, h3, h4, h5]
  rw [hempty]
  cases searchText with
  | none => rfl
  | some q =>
    by_cases hq : q = ""
    · subst hq; rfl
    · simp [prepareData, applySearch, groupActivity, sortByTimestampDesc, hq]

/-- Witness for C10 at a concrete unrecognized one-element filter set. -/
theorem currentActivity_unrecognized_keys_witness :
    currentActivity none {"FOO_ACTIVITY"} [{ type := "payment" }] [] [] [] [] = [] :=
  currentActivity_unrecognized_keys none {"FOO_ACTIVITY"} [{ type := "payment" }] [] [] [] []
    (Finset.singleton_ne_empty _) (by decide) (by decide) (by decide) (by decide) (by decide)

/-- Claim C4: the search filter is the identity for a null or empty query;
for a nonempty query it retains exactly the items where some listed field is
present and contains the query as a case-insensitive substring, or some
destination address contains it case-sensitively; items with every field
absent are dropped, never an error. -/
theorem applySearch_spec (data : List ActivityItem) :
    applySearch data none = data ∧ applySearch data (some "") = data ∧
    ∀ q : String, q ≠ "" → ∀ x : ActivityItem,
      x ∈ applySearch data (some q) ↔ x ∈ data ∧ specMatches q x := by
  refine ⟨rfl, rfl, ?_⟩
  intro q hq x
  have hqB : (q == "") = false := by
    simpa using hq
  rw [applySearch]
  simp only [hqB, Bool.false_eq_true, if_false, List.mem_filter, Bool.or_eq_true,
    List.any_eq_true, specMatches]
  constructor
  · rintro ⟨hx, hmatch⟩
    refine ⟨hx, ?_⟩
    rcases hmatch with ⟨v, hv, hp⟩ | hA
    · exact Or.inl ⟨v, hv, (propMatches_eq_spec hq v).mp hp⟩
    · exact Or.inr ((hasAddressMatch_iff hq x).mp hA)
  · rintro ⟨hx, hmatch⟩
    refine ⟨hx, ?_⟩
    rcases hmatch with ⟨v, hv, hp⟩ | hA
    · exact Or.inl ⟨v, hv, (propMatches_eq_spec hq v).mpr hp⟩
    · exact Or.inr ((hasAddressMatch_iff hq x).mpr hA)

/-- Witness for C4 at the sample item and the nonempty query alice. -/
theorem applySearch_spec_witness :
    aliceItem ∈ applySearch [aliceItem] (some "alice") ↔
      aliceItem ∈ [aliceItem] ∧ specMatches "alice" aliceItem :=
  (applySearch_spec [aliceItem]).2.2 "alice" (by decide) aliceItem

/-- Claim C5: the sent category is exactly the payments pool together with
the transactions that are not received, not funding, not closing and not
pending, each decorated with date and timestamp by the normalizer `addDate`
(in-flight payments live in the separate sending pool, so the payments pool
holds the non-pending payments). -/
theorem sentActivityRaw_spec (payments transactions : List ActivityItem)
    (x : ActivityItem) :
    x ∈ sentActivityRaw payments transactions ↔
      (∃ p ∈ payments, addDate p = x) ∨
      ∃ t ∈ transactions,
        t.isReceived = false ∧ t.isFunding = false ∧ t.isClosing = false ∧
          t.isPending = false ∧ addDate t = x := by
  unfold sentActivityRaw
  simp only [List.map_append, List.mem_append, List.mem_map, List.mem_filter,
    Bool.and_eq_true, Bool.not_eq_true', and_assoc]

theorem foldl_insert_eq_union (ks : List String) :
    ∀ f : Finset String, ks.foldl (fun s k => insert k s) f = f ∪ ks.toFinset := by
  induction ks with
  | nil => intro f; simp
  | cons k ks ih =>
    intro f
    rw [List.foldl_cons, ih]
    ext a
    simp only [Finset.mem_union, Finset.mem_insert, List.toFinset_cons]
    tauto

/-- Claim C6: the add-filter handler is a no-op on an empty filter set for
any key list, and on a nonempty filter set it adds each key of the list. -/
theorem addFilterHandler_spec (f : Finset String) (ks : List String) :
    (f = ∅ → addFilterHandler f ks = f) ∧
    (f ≠ ∅ → addFilterHandler f ks = f ∪ ks.toFinset) := by
  constructor
  · intro h
    subst h
    simp [addFilterHandler]
  · intro h
    have hcard : 0 < f.card :=
      Finset.card_pos.mpr (Finset.nonempty_iff_ne_empty.mpr h)
    rw [addFilterHandler, if_pos hcard, foldl_insert_eq_union]

/-- Witness for C6: both the empty-set no-op and the nonempty-set addition
at concrete inputs. -/
theorem addFilterHandler_spec_witness :
    addFilterHandler ∅ ["SENT_ACTIVITY"] = ∅ ∧
    addFilterHandler {"PENDING_ACTIVITY"} ["SENT_ACTIVITY"] =
      {"PENDING_ACTIVITY"} ∪ (["SENT_ACTIVITY"] : List String).toFinset :=
  ⟨(addFilterHandler_spec ∅ ["SENT_ACTIVITY"]).1 rfl,
   (addFilterHandler_spec {"PENDING_ACTIVITY"} ["SENT_ACTIVITY"]).2
     (Finset.singleton_ne_empty _)⟩

/-- Claim C7: toggling the same filter key twice with the change-filter
handler restores the original filter set. -/
theorem changeFilterHandler_involution (f : Finset String) (k : String) :
    changeFilterHandler (changeFilterHandler f [k]) [k] = f := by
  unfold changeFilterHandler
  simp only [List.foldl_cons, List.foldl_nil]
  by_cases h : k ∈ f
  · rw [if_pos h, if_neg (Finset.not_mem_erase k f)]
    exact Finset.insert_erase h
  · rw [if_neg h, if_pos (Finset.mem_insert_self k f)]
    exact Finset.erase_insert h

/-- Claim C8: the normalizer picks the timestamp by variant: a transaction
uses time_stamp, an invoice uses settle_date when settled and creation_date
otherwise, a payment uses creation_date; `addDate` writes that value into
the timestamp field. -/
theorem returnTimestamp_variants (a : ActivityItem) :
    (a.type = "transaction" →
      returnTimestamp a = some a.time_stamp ∧ (addDate a).timestamp = a.time_stamp) ∧
    (a.type = "invoice" →
      returnTimestamp a = some (if a.settled then a.settle_date else a.creation_date) ∧
        (addDate a).timestamp = if a.settled then a.settle_date else a.creation_date) ∧
    (a.type = "payment" →
      returnTimestamp a = some a.creation_date ∧
        (addDate a).timestamp = a.creation_date) := by
  refine ⟨?_, ?_, ?_⟩ <;> intro h <;> simp [returnTimestamp, addDate, h]

/-- Witness for C8 on one concrete item of each variant. -/
theorem returnTimestamp_variants_witness :
    (returnTimestamp { type := "transaction", time_stamp := 5 } =
        some ({ type := "transaction", time_stamp := 5 } : ActivityItem).time_stamp ∧
      (addDate { type := "transaction", time_stamp := 5 }).timestamp =
        ({ type := "transaction", time_stamp := 5 } : ActivityItem).time_stamp) ∧
    (returnTimestamp { type := "invoice", settled := true, settle_date := 6 } =
        some (if ({ type := "invoice", settled := true, settle_date := 6 } :
            ActivityItem).settled
          then ({ type := "invoice", settled := true, settle_date := 6 } :
            ActivityItem).settle_date
          else ({ type := "invoice", settled := true, settle_date := 6 } :
            ActivityItem).creation_date) ∧
      (addDate { type := "invoice", settled := true, settle_date := 6 }).timestamp =
        if ({ type := "invoice", settled := true, settle_date := 6 } :
            ActivityItem).settled
        then ({ type := "invoice", settled := true, settle_date := 6 } :
          ActivityItem).settle_date
        else ({ type := "invoice", settled := true, settle_date := 6 } :
          ActivityItem).creation_date) ∧
    (returnTimestamp { type := "payment", creation_date := 7 } =
        some ({ type := "payment", creation_date := 7 } : ActivityItem).creation_date ∧
      (addDate { type := "payment", creation_date := 7 }).timestamp =
        ({ type := "payment", creation_date := 7 } : ActivityItem).creation_date) :=
  ⟨(returnTimestamp_variants { type := "transaction", time_stamp := 5 }).1 rfl,
   (returnTimestamp_variants { type := "invoice", settled := true, settle_date := 6 }).2.1 rfl,
   (returnTimestamp_variants { type := "payment", creation_date := 7 }).2.2 rfl⟩

/-- Claim C9: the backup factory returns the Drive, Dropbox and local
providers for exactly the strings gdrive, dropbox and local, and fails with
the unimplemented-operation error on every other string. -/
theorem getBackupService_spec :
    getBackupService GOOGLE_DRIVE = Except.ok BackupService.gdrive ∧
    getBackupService DROPBOX = Except.ok BackupService.dropbox ∧
    getBackupService LOCAL = Except.ok BackupService.local ∧
    ∀ provider : String,
      provider ≠ GOOGLE_DRIVE → provider ≠ DROPBOX → provider ≠ LOCAL →
        getBackupService provider = Except.error "not implemented" := by
  refine ⟨rfl, rfl, rfl, ?_⟩
  intro provider h1 h2 h3
  rw [getBackupService, if_neg h1, if_neg h2, if_neg h3]

/-- Witness for C9 at the unmatched provider string unknown. -/
theorem getBackupService_spec_witness :
    getBackupService "unknown" = Except.error "not implemented" :=
  getBackupService_spec.2.2.2 "unknown" (by decide) (by decide) (by decide)
